import Mathlib

/-!
Shallow embedding of the Norton Ebook Auto-Solver browser extension
(src/content.js and src/background.js) together with proofs about its
solving pipeline.

The DOM-facing parts are modelled by the data they actually inspect:

* a question group is the list of its radio inputs' `disabled` flags plus
  the list of `textContent` strings seen while walking up through parents
  and shadow hosts from the first radio (`isQuestionComplete`,
  content.js lines 110-131);
* the feedback-modal DOM is a list of elements carrying the fields the
  dismissal code reads: tag (button or not), text content, aria-label,
  the structural close-button class, whether the element sits inside a
  shadow root (relevant because `document.querySelector` does not pierce
  shadow roots while `deepFind` does), rendered width/height, and whether
  reading the geometry throws (`tryDismissLocal`, content.js lines 252-295);
* the per-trial behaviour of the host page (whether the Check Answer
  button is found, and what the feedback modal reports) is an oracle
  indexed by the trial position, since the page DOM can change between
  trials (`solveOneQuestion`, content.js lines 349-399).

Mutation of the page is modelled as a trace of events (AI query, option
selection, Check Answer activation) emitted by the solve loop.
-/

namespace NortonSolver

/-- Outcome of the feedback-modal resolution: the JS strings
"correct" | "wrong" | "unknown". -/
inductive Outcome
  | correct
  | wrong
  | unknown
deriving DecidableEq, Repr

/- ======= string helpers (JS `String.prototype.includes`, `/.../i`) ======= -/

/-- Substring test on character lists, modelling JS `hay.includes(pat)`. -/
def containsSub : List Char → List Char → Bool
  | [], pat => pat.isEmpty
  | h :: t, pat => pat.isPrefixOf (h :: t) || containsSub t pat

/-- JS `toLowerCase` on the character list (ASCII, which is all the
patterns use). -/
def lowerList (l : List Char) : List Char := l.map Char.toLower

/-- JS `toUpperCase` on the character list. -/
def upperList (l : List Char) : List Char := l.map Char.toUpper

/-- JS `trim`: strip whitespace from both ends. -/
def trimChars (l : List Char) : List Char :=
  ((l.dropWhile Char.isWhitespace).reverse.dropWhile Char.isWhitespace).reverse

/-- Case-insensitive substring test, modelling `/pat/i.test(t)` for a
literal pattern `pat` (content.js lines 118-120). -/
def icontains (t pat : String) : Bool :=
  containsSub (lowerList t.toList) (lowerList pat.toList)

/-- JS word character (`\w` is `[A-Za-z0-9_]`). -/
def isWordChar (c : Char) : Bool := c.isAlphanum || c = '_'

/-- The pattern of content.js line 120. -/
def patCOMPLETE : List Char := "COMPLETE".toList

/-- Whole-word, case-insensitive match of `COMPLETE`, modelling the JS
regex `/\bCOMPLETE\b/i` of content.js line 120: the eight letters occur
and the characters immediately before and after (when they exist) are
non-word characters.  Case-insensitivity is modelled by uppercasing the
subject (the pattern is already upper case). -/
def hasWordCOMPLETE (t : String) : Bool :=
  let s := upperList t.toList
  (List.range (s.length + 1)).any fun i =>
    decide ((s.drop i).take patCOMPLETE.length = patCOMPLETE)
    && (decide (i = 0) || !isWordChar (s.getD (i - 1) ' '))
    && (decide (s.length ≤ i + patCOMPLETE.length)
        || !isWordChar (s.getD (i + patCOMPLETE.length) ' '))

/- ======= completion oracle (content.js isQuestionComplete) ======= -/

/-- A question group as seen by the completion oracle: the `disabled`
flag of each radio, and the `textContent` of the successive nodes
visited while walking upward from the first radio through parents and
shadow hosts. -/
structure QuestionGroup where
  ancestorTexts : List String
  optionDisabled : List Bool
deriving DecidableEq, Repr

def sCYU : String := "Check Your Understanding"

def sINCOMPLETE : String := "INCOMPLETE"

def sCOMPLETE : String := "COMPLETE"

/-- The ancestor walk of content.js lines 113-125: at most `fuel` (20)
nodes are inspected; a node containing the "Check Your Understanding"
marker decides the answer if it also contains "INCOMPLETE" (checked
first) or a whole-word "COMPLETE"; otherwise the walk continues. -/
def checkAncestors : List String → Nat → Option Bool
  | _, 0 => none
  | [], _ + 1 => none
  | t :: rest, fuel + 1 =>
    if icontains t sCYU then
      if icontains t sINCOMPLETE then some false
      else if hasWordCOMPLETE t then some true
      else checkAncestors rest fuel
    else checkAncestors rest fuel

/-- content.js lines 110-131: walk up to 20 ancestors; if the walk
decides, return that answer, otherwise fall back to "every radio is
disabled". -/
def isQuestionComplete (g : QuestionGroup) : Bool :=
  match checkAncestors g.ancestorTexts 20 with
  | some b => b
  | none => g.optionDisabled.all fun d => d

/-- Declarative marker reading of a single ancestor text, used by the
specification-side form of the completion oracle: `none` when the text
decides nothing. -/
def markerDecision (t : String) : Option Bool :=
  if icontains t sCYU then
    if icontains t sINCOMPLETE then some false
    else if hasWordCOMPLETE t then some true
    else none
  else none

/-- Specification-side completion oracle: the first of the first 20
ancestor texts that decides (INCOMPLETE before whole-word COMPLETE)
gives the answer; with no deciding ancestor, the group is complete
exactly when every option is disabled. -/
def isCompleteSpec (g : QuestionGroup) : Bool :=
  ((g.ancestorTexts.take 20).findSome? markerDecision).getD
    (g.optionDisabled.all fun d => d)

lemma checkAncestors_eq_findSome (ts : List String) :
    ∀ fuel, checkAncestors ts fuel = (ts.take fuel).findSome? markerDecision := by
  induction ts with
  | nil => intro fuel; cases fuel <;> simp [checkAncestors]
  | cons t rest ih =>
    intro fuel
    cases fuel with
    | zero => simp [checkAncestors]
    | succ f =>
      by_cases h1 : icontains t sCYU = true
      · by_cases h2 : icontains t sINCOMPLETE = true
        · simp [checkAncestors, markerDecision, h1, h2, List.findSome?_cons]
        · by_cases h3 : hasWordCOMPLETE t = true
          · simp [checkAncestors, markerDecision, h1, h2, h3, List.findSome?_cons]
          · simp [checkAncestors, markerDecision, h1, h2, h3, List.findSome?_cons, ih f]
      · simp [checkAncestors, markerDecision, h1, List.findSome?_cons, ih f]

/- ======= askAI (content.js lines 329-345) ======= -/

/-- What `askAI` resolves to: the suggested index (`none` models a
missing/undefined/NaN `index` field, all falsy in JS) and the error
flag. -/
structure AIRes where
  index : Option Int
  error : Bool
deriving DecidableEq, Repr

/-- The three ways the `chrome.runtime.sendMessage` round trip of
`askAI` can end: transport error (`chrome.runtime.lastError`), an error
response from the background worker (`res.error` truthy), or a normal
response carrying an index and the raw model text. -/
inductive AIReply
  | transportError
  | errorResponse
  | success (index : Option Int) (raw : String)
deriving DecidableEq, Repr

/-- content.js lines 329-345: both failure modes resolve to
`{ index: 0, error: true }`; a normal response is passed through. -/
def askAI : AIReply → AIRes
  | AIReply.transportError => ⟨some 0, true⟩
  | AIReply.errorResponse => ⟨some 0, true⟩
  | AIReply.success idx _ => ⟨idx, false⟩

/- ======= solveOneQuestion (content.js lines 349-399) ======= -/

/-- `aiResult.index || 0` of content.js line 373: a falsy index
(missing, NaN, or 0 itself) becomes 0. -/
def effIndex (r : AIRes) : Int := r.index.getD 0

/-- `Math.min(Math.max(aiResult.index || 0, 0), radios.length - 1)`
(content.js line 373). -/
def aiChoiceInt (r : AIRes) (n : Nat) : Int :=
  min (max (effIndex r) 0) ((n : Int) - 1)

/-- The clamped choice as a natural number; for `1 ≤ n` the clamped
value is non-negative, so this is faithful to the JS number. -/
def aiChoiceNat (r : AIRes) (n : Nat) : Nat := (aiChoiceInt r n).toNat

/-- content.js line 377:
`[aiChoice, ...Array.from({length: n}, (_, i) => i).filter(i => i !== aiChoice)]`. -/
def trialOrder (k n : Nat) : List Nat :=
  k :: (List.range n).filter (· != k)

/-- An observable action of the solve loop: querying the AI, selecting
the radio at an index (`selectRadio`), or activating Check Answer
(`clickCheckAnswer`). -/
inductive Event
  | queryAI
  | select (i : Nat)
  | checkClick
deriving DecidableEq, Repr

/-- How one call of `solveOneQuestion` ends. -/
inductive SolveResult
  | skipped
  | success (i : Nat)
  | exhausted
deriving DecidableEq, Repr

/-- The environment one `solveOneQuestion` call runs in: the question
group, the AI round-trip reply, and two oracles indexed by the trial
position (the page DOM can change between trials): whether the Check
Answer button is found, and what `dismissFeedbackModal` reports. -/
structure SolveEnv where
  group : QuestionGroup
  aiReply : AIReply
  checkFound : Nat → Bool
  outcome : Nat → Outcome

/-- The `for (const i of order)` loop of content.js lines 379-396.
Each iteration selects option `i`; if the Check Answer button is not
found the loop continues to the next index (content.js line 385),
otherwise the button is clicked and the modal outcome is read: exactly
the outcome "correct" returns success, anything else moves on. -/
def runTrials (env : SolveEnv) : List Nat → Nat → List Event × SolveResult
  | [], _ => ([], SolveResult.exhausted)
  | i :: rest, t =>
    if env.checkFound t then
      if env.outcome t = Outcome.correct then
        ([Event.select i, Event.checkClick], SolveResult.success i)
      else
        let p := runTrials env rest (t + 1)
        (Event.select i :: Event.checkClick :: p.1, p.2)
    else
      let p := runTrials env rest (t + 1)
      (Event.select i :: p.1, p.2)

/-- content.js lines 349-399: skip completed groups outright, otherwise
ask the AI, clamp its suggestion, and run the trial loop. -/
def solveOneQuestion (env : SolveEnv) : List Event × SolveResult :=
  if isQuestionComplete env.group then ([], SolveResult.skipped)
  else
    let n := env.group.optionDisabled.length
    let k := aiChoiceNat (askAI env.aiReply) n
    let p := runTrials env (trialOrder k n) 0
    (Event.queryAI :: p.1, p.2)

/-- The trial order a `solveOneQuestion` run actually iterates over. -/
def envOrder (env : SolveEnv) : List Nat :=
  trialOrder (aiChoiceNat (askAI env.aiReply) env.group.optionDisabled.length)
    env.group.optionDisabled.length

/-- Trial `t` positively confirms the answer: Check Answer was found
and the modal reported "correct". -/
def trialHit (env : SolveEnv) (t : Nat) : Bool :=
  env.checkFound t && decide (env.outcome t = Outcome.correct)

/-- The selection actions contained in a trace. -/
def selectsOf (evs : List Event) : List Nat :=
  evs.filterMap fun e =>
    match e with
    | Event.select i => some i
    | _ => none

/- ======= modal resolution (content.js lines 252-325) ======= -/

/-- An element of the frame's DOM as read by `tryDismissLocal`: whether
it is a `button`, its `textContent`, its `aria-label`, whether it bears
the `question-frame__feedback__close-btn` class, whether it lives inside
a shadow root (`document.querySelector` cannot see it there, the deep
searches can), its rendered geometry, and whether reading the geometry
throws. -/
structure Elem where
  isButton : Bool
  text : String
  ariaLabel : Option String
  hasCloseClass : Bool
  inShadow : Bool
  width : Nat
  height : Nat
  measureThrows : Bool
deriving DecidableEq, Repr

/-- `deepFindByText` text predicate (content.js lines 41-45):
`el.textContent.trim().toLowerCase().includes(text.toLowerCase())`. -/
def textIncludes (t kw : String) : Bool :=
  containsSub (lowerList (trimChars t.toList)) (lowerList kw.toList)

/-- The visibility filter of the two keyword phases (content.js lines
256-258 and 269-271): `try { return b.offsetWidth > 0 && b.offsetHeight > 0 }
catch (_) { return true }`. -/
def isVisible (e : Elem) : Bool :=
  if e.measureThrows then true else decide (0 < e.width) && decide (0 < e.height)

/-- The visibility filter of the aria-label phase (content.js line 290):
`try { return e.offsetWidth > 0 } catch (_) { return true }` — width only. -/
def isVisibleW (e : Elem) : Bool :=
  if e.measureThrows then true else decide (0 < e.width)

def wrongKws : List String := ["try again", "retry"]

def correctKws : List String := ["finish", "ok", "done", "continue", "got it"]

def closeLabels : List String := ["Close", "close", "Dismiss"]

/-- `deepFindByText(document, "button", kw)`: buttons anywhere (shadow
included) whose text matches the keyword. -/
def buttonsMatching (els : List Elem) (kw : String) : List Elem :=
  els.filter fun e => e.isButton && textIncludes e.text kw

/-- One keyword loop of `tryDismissLocal` (lines 254-264 or 267-277):
for each keyword in order, the visible matching buttons; the first
keyword with a visible button yields that button. -/
def dismissPhase (els : List Elem) (kws : List String) : Option Elem :=
  kws.findSome? fun kw => ((buttonsMatching els kw).filter isVisible).head?

/-- The aria-label loop of `tryDismissLocal` (lines 288-292): for each
label in order, the visible (width only) elements bearing exactly that
`aria-label`. -/
def ariaPhase (els : List Elem) : Option Elem :=
  closeLabels.findSome? fun lab =>
    ((els.filter fun e => e.ariaLabel == some lab).filter isVisibleW).head?

/-- content.js lines 252-295.  Phase order: visible "try again"/"retry"
button → "wrong"; visible "finish"/"ok"/"done"/"continue"/"got it"
button → "correct"; the close-button class found by a plain
`document.querySelector` (no shadow piercing, no try/catch — a throwing
geometry read propagates, modelled by `Except.error`) with positive
width → "correct"; a visible aria-labelled close control → "correct";
otherwise no outcome. -/
def tryDismissLocal (els : List Elem) : Except Unit (Option Outcome) :=
  match dismissPhase els wrongKws with
  | some _ => Except.ok (some Outcome.wrong)
  | none =>
    match dismissPhase els correctKws with
    | some _ => Except.ok (some Outcome.correct)
    | none =>
      match els.find? fun e => e.hasCloseClass && !e.inShadow with
      | some cb =>
        if cb.measureThrows then Except.error ()
        else if 0 < cb.width then Except.ok (some Outcome.correct)
        else
          match ariaPhase els with
          | some _ => Except.ok (some Outcome.correct)
          | none => Except.ok none
      | none =>
        match ariaPhase els with
        | some _ => Except.ok (some Outcome.correct)
        | none => Except.ok none

/- specification-side reformulation of the same protocol -/

/-- Visibility as the spec defines it: non-zero width and height, a
throwing check conservatively counted visible. -/
def visibleWH (e : Elem) : Bool :=
  e.measureThrows || (decide (0 < e.width) && decide (0 < e.height))

/-- Width-only visibility with the conservative throw rule. -/
def visibleW (e : Elem) : Bool :=
  e.measureThrows || decide (0 < e.width)

/-- A button whose text matches one of the keywords. -/
def matchesAny (e : Elem) (kws : List String) : Bool :=
  e.isButton && kws.any fun kw => textIncludes e.text kw

/-- An element with one of the close/dismiss accessibility labels. -/
def ariaClose (e : Elem) : Bool :=
  closeLabels.any fun lab => e.ariaLabel == some lab

/-- Declarative form of `tryDismissLocal`, stated with existence tests
instead of the keyword-by-keyword loops.  The keyword phases use
width-and-height visibility (throw → visible); the class-based close
step reads only the width and does not guard the read; the aria step
uses width-only visibility (throw → visible). -/
def tryDismissSpec (els : List Elem) : Except Unit (Option Outcome) :=
  if els.any (fun e => matchesAny e wrongKws && visibleWH e) then
    Except.ok (some Outcome.wrong)
  else if els.any (fun e => matchesAny e correctKws && visibleWH e) then
    Except.ok (some Outcome.correct)
  else
    match els.find? fun e => e.hasCloseClass && !e.inShadow with
    | some cb =>
      if cb.measureThrows then Except.error ()
      else if 0 < cb.width then Except.ok (some Outcome.correct)
      else if els.any (fun e => ariaClose e && visibleW e) then
        Except.ok (some Outcome.correct)
      else Except.ok none
    | none =>
      if els.any (fun e => ariaClose e && visibleW e) then
        Except.ok (some Outcome.correct)
      else Except.ok none

/-- The resolver that claim C8 describes: the same phases with the
width-and-height visibility rule (throw → visible) applied uniformly at
every step, so no step can throw. -/
def tryDismissUniform (els : List Elem) : Option Outcome :=
  if els.any (fun e => matchesAny e wrongKws && visibleWH e) then
    some Outcome.wrong
  else if els.any (fun e => matchesAny e correctKws && visibleWH e) then
    some Outcome.correct
  else
    match els.find? fun e => e.hasCloseClass && !e.inShadow with
    | some cb =>
      if visibleWH cb then some Outcome.correct
      else if els.any (fun e => ariaClose e && visibleWH e) then
        some Outcome.correct
      else none
    | none =>
      if els.any (fun e => ariaClose e && visibleWH e) then
        some Outcome.correct
      else none

/- ======= cross-frame modal delegation (content.js lines 300-325,
   467-472; background.js lines 109-122) ======= -/

/-- The top frame's `dismissModal` listener (content.js lines 467-472):
it runs `tryDismissLocal` in the top frame and responds with the result,
`null` mapped to "unknown".  If the local resolver throws, no response
is ever sent (`none`), which the transport reports to the background
worker as an error. -/
def topDismissHandler (topEls : List Elem) : Option Outcome :=
  match tryDismissLocal topEls with
  | Except.error _ => none
  | Except.ok r => some (r.getD Outcome.unknown)

/-- The round trip an iframe makes to resolve the modal at top level:
`sendFails` models `chrome.runtime.lastError` at the iframe's
`sendMessage` (content.js line 315), `relayFails` models the background
worker's forward to frame 0 erroring (background.js lines 115-117).
Either failure, or a missing response, yields "unknown"; otherwise the
top frame's answer is passed through (`res?.result || "unknown"`). -/
def dismissViaTop (topEls : List Elem) (sendFails relayFails : Bool) : Outcome :=
  if sendFails then Outcome.unknown
  else
    match (if relayFails then none else topDismissHandler topEls) with
    | none => Outcome.unknown
    | some r => r

/-- content.js lines 300-325: try locally first; a local outcome is
returned as-is; with no local outcome, the top frame returns "unknown"
directly while an iframe delegates to the top frame. -/
def dismissFeedbackModal (els : List Elem) (atTop : Bool)
    (topEls : List Elem) (sendFails relayFails : Bool) : Except Unit Outcome :=
  match tryDismissLocal els with
  | Except.error e => Except.error e
  | Except.ok (some r) => Except.ok r
  | Except.ok none =>
    if atTop then Except.ok Outcome.unknown
    else Except.ok (dismissViaTop topEls sendFails relayFails)

/- ======= background worker letter mapping (background.js lines 61-67) ======= -/

def letters : List Char := ['A', 'B', 'C', 'D', 'E', 'F']

/-- `letters.indexOf(s.charAt(0))` where `s` is the filtered string:
`charAt(0)` of an empty string is `""`, which `indexOf` reports as −1;
a character is looked up in the array (−1 when absent, though a
filtered character is always present). -/
def letterIdxOf : Option Char → Int
  | none => -1
  | some c => if letters.contains c then (letters.indexOf c : Int) else -1

/-- `letterIdx >= 0 ? letterIdx : 0` (background.js line 65). -/
def jsIndexDefault (letterIdx : Int) : Nat :=
  (if 0 ≤ letterIdx then letterIdx else 0).toNat

/-- background.js lines 64-65:
`letters.indexOf(raw.toUpperCase().replace(/[^A-F]/g, "").charAt(0))`
with the `-1 → 0` default. -/
def mapRawToIndex (raw : String) : Nat :=
  jsIndexDefault (letterIdxOf
    (((upperList raw.toList).filter fun c => decide ('A' ≤ c) && decide (c ≤ 'F')).head?))

/-- What the background worker sends back over `sendResponse`. -/
inductive HandlerResult
  | response (index : Nat) (raw : String)
  | errorResult
deriving DecidableEq, Repr

/-- The success path of the `askAI` handler (background.js lines 60-67):
`data.choices?.[0]?.message?.content?.trim() ?? ""` then the letter
mapping; the response always carries an index, never an error. -/
def handleAISuccess (content : Option String) : HandlerResult :=
  HandlerResult.response
    (mapRawToIndex (String.mk (trimChars (content.getD "").toList)))
    (String.mk (trimChars (content.getD "").toList))

/-- Position in A..F of the first surviving letter, defaulting to 0. -/
def specHead : Option Char → Nat
  | some c => letters.indexOf c
  | none => 0

/-- Specification-side letter mapping: uppercase, delete every character
that is not one of the six letters, and take the position of the first
remaining letter in A..F, defaulting to 0. -/
def specLetterIndex (raw : String) : Nat :=
  specHead (((upperList raw.toList).filter fun c => letters.contains c).head?)

/-- An ancestor text used to separate the substring reading of the
COMPLETE marker from the whole-word reading the code implements. -/
def cexText : String := "Check Your Understanding STATUS COMPLETED"

/-- Tiny Bool helper: two booleans agreeing as propositions are equal. -/
lemma bool_eq_of_iff {a b : Bool} (h : a = true ↔ b = true) : a = b := by
  cases a <;> cases b <;> simp_all

/- ======= theorems ======= -/

lemma trialOrder_perm (k n : Nat) (hk : k < n) :
    (trialOrder k n).Perm (List.range n) := by
  have hmem : k ∈ List.range n := List.mem_range.mpr hk
  have hrw : trialOrder k n = k :: (List.range n).erase k := by
    rw [(List.nodup_range n).erase_eq_filter k]; rfl
  rw [hrw]
  exact (List.perm_cons_erase hmem).symm

/-- C1: for a question group of `n` options and an in-bounds AI
suggestion `k`, the trial order built at content.js line 377 starts
with `k`, continues with the remaining indices in ascending original
order, has no duplicates, omits no index below `n`, and has length
exactly `n`. -/
theorem trialOrder_spec (k n : Nat) (hk : k < n) :
    (trialOrder k n).head? = some k
    ∧ List.Sorted (· < ·) (trialOrder k n).tail
    ∧ (∀ i, i ∈ (trialOrder k n).tail ↔ i < n ∧ i ≠ k)
    ∧ (trialOrder k n).Nodup
    ∧ (∀ i, i ∈ trialOrder k n ↔ i < n)
    ∧ (trialOrder k n).length = n := by
  have hperm := trialOrder_perm k n hk
  refine ⟨rfl, ?_, ?_, ?_, ?_, ?_⟩
  · show List.Sorted (· < ·) ((List.range n).filter (· != k))
    exact List.Pairwise.sublist (List.filter_sublist _) (List.pairwise_lt_range n)
  · intro i
    show i ∈ (List.range n).filter (· != k) ↔ i < n ∧ i ≠ k
    simp [List.mem_filter, List.mem_range, bne_iff_ne]
  · refine List.nodup_cons.mpr ⟨?_, (List.nodup_range n).filter _⟩
    simp [List.mem_filter]
  · intro i
    rw [hperm.mem_iff, List.mem_range]
  · rw [hperm.length_eq, List.length_range]

/-- Witness for C1 at `k = 2`, `n = 4`. -/
theorem trialOrder_spec_witness :
    (trialOrder 2 4).head? = some 2 ∧ (trialOrder 2 4).Nodup
    ∧ (trialOrder 2 4).length = 4 := by
  have h := trialOrder_spec 2 4 (by decide)
  exact ⟨h.1, h.2.2.2.1, h.2.2.2.2.2⟩

/-- C2: when the completion oracle reports the group complete,
`solveOneQuestion` returns at once: the trace is empty (no selection,
no Check Answer activation, no AI query — and hence no option state is
touched) and the run counts as a skip. -/
theorem solve_skips_complete (env : SolveEnv)
    (h : isQuestionComplete env.group = true) :
    solveOneQuestion env = ([], SolveResult.skipped) := by
  simp [solveOneQuestion, h]

/-- Witness for C2: a one-option group whose radio is disabled (so the
fallback of the oracle reports complete). -/
theorem solve_skips_complete_witness :
    solveOneQuestion
        ⟨⟨[], [true]⟩, AIReply.transportError, fun _ => true, fun _ => Outcome.wrong⟩
      = ([], SolveResult.skipped) :=
  solve_skips_complete _ (by rfl)

lemma runTrials_cons_hit (env : SolveEnv) (i : Nat) (rest : List Nat) (t : Nat)
    (h : trialHit env t = true) :
    runTrials env (i :: rest) t
      = ([Event.select i, Event.checkClick], SolveResult.success i) := by
  have h1 : env.checkFound t = true := by
    have := h
    unfold trialHit at this
    exact (Bool.and_eq_true _ _).mp this |>.1
  have h2 : env.outcome t = Outcome.correct := by
    have := h
    unfold trialHit at this
    have := (Bool.and_eq_true _ _).mp this |>.2
    exact of_decide_eq_true this
  simp [runTrials, h1, h2]

lemma runTrials_cons_miss (env : SolveEnv) (i : Nat) (rest : List Nat) (t : Nat)
    (h : trialHit env t = false) :
    (runTrials env (i :: rest) t).2 = (runTrials env rest (t + 1)).2 := by
  unfold trialHit at h
  by_cases h1 : env.checkFound t = true
  · have h2 : ¬env.outcome t = Outcome.correct := by
      rw [h1] at h
      simpa using h
    simp [runTrials, h1, h2]
  · have h1' : env.checkFound t = false := by simpa using h1
    simp [runTrials, h1']

lemma runTrials_success_iff (env : SolveEnv) :
    ∀ (l : List Nat) (t i : Nat),
      (runTrials env l t).2 = SolveResult.success i ↔
        ∃ j, trialHit env (t + j) = true
          ∧ (∀ m, m < j → trialHit env (t + m) = false)
          ∧ l[j]? = some i := by
  intro l
  induction l with
  | nil =>
    intro t i
    simp [runTrials]
  | cons a rest ih =>
    intro t i
    by_cases h : trialHit env t = true
    · rw [runTrials_cons_hit env a rest t h]
      constructor
      · intro hs
        injection hs with hai
        subst hai
        exact ⟨0, by simpa using h, fun m hm => absurd hm (Nat.not_lt_zero m), by simp⟩
      · rintro ⟨j, hj, hmin, hget⟩
        cases j with
        | zero =>
          simp at hget
          subst hget
          rfl
        | succ j' =>
          have h0 := hmin 0 (Nat.succ_pos j')
          rw [Nat.add_zero] at h0
          rw [h0] at h
          exact absurd h (by simp)
    · have hb : trialHit env t = false := by simpa using h
      rw [runTrials_cons_miss env a rest t hb, ih (t + 1) i]
      constructor
      · rintro ⟨j, hj, hmin, hget⟩
        refine ⟨j + 1, ?_, ?_, ?_⟩
        · have e : t + 1 + j = t + (j + 1) := by omega
          rwa [e] at hj
        · intro m hm
          cases m with
          | zero => simpa using hb
          | succ m' =>
            have e : t + (m' + 1) = t + 1 + m' := by omega
            rw [e]
            exact hmin m' (by omega)
        · simpa using hget
      · rintro ⟨j, hj, hmin, hget⟩
        cases j with
        | zero =>
          rw [Nat.add_zero] at hj
          rw [hj] at hb
          exact absurd hb (by simp)
        | succ j' =>
          refine ⟨j', ?_, ?_, ?_⟩
          · have e : t + (j' + 1) = t + 1 + j' := by omega
            rwa [e] at hj
          · intro m hm
            have e : t + 1 + m = t + (m + 1) := by omega
            rw [e]
            exact hmin (m + 1) (by omega)
          · simpa using hget

lemma runTrials_exhausted_iff (env : SolveEnv) :
    ∀ (l : List Nat) (t : Nat),
      (runTrials env l t).2 = SolveResult.exhausted ↔
        ∀ j, j < l.length → trialHit env (t + j) = false := by
  intro l
  induction l with
  | nil =>
    intro t
    simp [runTrials]
  | cons a rest ih =>
    intro t
    by_cases h : trialHit env t = true
    · rw [runTrials_cons_hit env a rest t h]
      constructor
      · intro hs
        exact absurd hs (by simp)
      · intro hall
        have h0 := hall 0 (by simp)
        rw [Nat.add_zero] at h0
        rw [h0] at h
        exact absurd h (by simp)
    · have hb : trialHit env t = false := by simpa using h
      rw [runTrials_cons_miss env a rest t hb, ih (t + 1)]
      constructor
      · intro hall j hj
        cases j with
        | zero => simpa using hb
        | succ j' =>
          have e : t + (j' + 1) = t + 1 + j' := by omega
          rw [e]
          exact hall j' (by simpa using hj)
      · intro hall j hj
        have e : t + 1 + j = t + (j + 1) := by omega
        rw [e]
        exact hall (j + 1) (by simpa using hj)

lemma runTrials_map_unknown (env : SolveEnv) :
    ∀ (l : List Nat) (t : Nat),
      runTrials
          ⟨env.group, env.aiReply, env.checkFound,
            fun s => if env.outcome s = Outcome.unknown then Outcome.wrong else env.outcome s⟩
          l t
        = runTrials env l t := by
  intro l
  induction l with
  | nil => intro t; rfl
  | cons a rest ih =>
    intro t
    by_cases hc : env.checkFound t = true
    · cases ho : env.outcome t with
      | correct => simp [runTrials, hc, ho]
      | wrong => simp [runTrials, hc, ho, ih (t + 1)]
      | unknown => simp [runTrials, hc, ho, ih (t + 1)]
    · have hc' : env.checkFound t = false := by simpa using hc
      simp [runTrials, hc', ih (t + 1)]

/-- C3: an incomplete group's solve run ends in success exactly when
some trial is positively confirmed "correct", and then with the option
of the first such trial (no later option is tried); it ends exhausted
exactly when no trial is confirmed; and replacing every "unknown" modal
outcome by "wrong" changes nothing, so the loop never concludes success
without a positive "correct". -/
theorem solve_success_characterization (env : SolveEnv)
    (h : isQuestionComplete env.group = false) :
    (∀ i, (solveOneQuestion env).2 = SolveResult.success i ↔
        ∃ j, trialHit env j = true ∧ (∀ m, m < j → trialHit env m = false)
          ∧ (envOrder env)[j]? = some i)
    ∧ ((solveOneQuestion env).2 = SolveResult.exhausted ↔
        ∀ j, j < (envOrder env).length → trialHit env j = false)
    ∧ solveOneQuestion
        ⟨env.group, env.aiReply, env.checkFound,
          fun s => if env.outcome s = Outcome.unknown then Outcome.wrong else env.outcome s⟩
      = solveOneQuestion env := by
  have hsnd : (solveOneQuestion env).2 = (runTrials env (envOrder env) 0).2 := by
    simp [solveOneQuestion, h, envOrder]
  refine ⟨?_, ?_, ?_⟩
  · intro i
    rw [hsnd, runTrials_success_iff env (envOrder env) 0 i]
    simp
  · rw [hsnd, runTrials_exhausted_iff env (envOrder env) 0]
    simp
  · simp [solveOneQuestion, h, envOrder, runTrials_map_unknown env]

/-- Witness for C3: one incomplete option, Check Answer always found,
the modal always says "wrong" — the run is exhausted. -/
theorem solve_success_characterization_witness :
    (solveOneQuestion
        ⟨⟨[], [false]⟩, AIReply.success (some 0) "A",
          fun _ => true, fun _ => Outcome.wrong⟩).2
      = SolveResult.exhausted := by
  have h := solve_success_characterization
    ⟨⟨[], [false]⟩, AIReply.success (some 0) "A",
      fun _ => true, fun _ => Outcome.wrong⟩ (by rfl)
  exact h.2.1.mpr (by decide)

lemma trialOrder_zero (n : Nat) (hn : 1 ≤ n) : trialOrder 0 n = List.range n := by
  obtain ⟨m, rfl⟩ : ∃ m, n = m + 1 := ⟨n - 1, by omega⟩
  unfold trialOrder
  rw [List.range_succ_eq_map]
  congr 1
  rw [List.filter_cons]
  simp only [bne_self_eq_false, Bool.false_eq_true, if_false]
  apply List.filter_eq_self.mpr
  intro b hb
  rcases List.mem_map.mp hb with ⟨x, _, rfl⟩
  simp

lemma runTrials_all_wrong (env : SolveEnv)
    (hcf : ∀ t, env.checkFound t = true)
    (hout : ∀ t, env.outcome t = Outcome.wrong) :
    ∀ (l : List Nat) (t : Nat),
      selectsOf (runTrials env l t).1 = l
      ∧ (runTrials env l t).2 = SolveResult.exhausted := by
  intro l
  induction l with
  | nil =>
    intro t
    simp [runTrials, selectsOf]
  | cons a rest ih =>
    intro t
    have h1 := hcf t
    have h2 := hout t
    refine ⟨?_, ?_⟩
    · show selectsOf (runTrials env (a :: rest) t).1 = a :: rest
      simp only [runTrials, h1, h2, if_true, reduceIte]
      simp only [selectsOf, List.filterMap_cons]
      have := (ih (t + 1)).1
      simp only [selectsOf] at this
      simp [this]
    · rw [runTrials_cons_miss env a rest t (by simp [trialHit, h2])]
      exact (ih (t + 1)).2

/-- C4: on an AI transport error or error response, `askAI` resolves to
index 0 with the error flag (it never raises), and an incomplete group
whose every check reports "wrong" is brute-forced through the trial
order `[0, 1, ..., n-1]`: every option is selected in ascending order
and the run ends exhausted. -/
theorem ai_failure_brute_force (env : SolveEnv)
    (hn : 1 ≤ env.group.optionDisabled.length)
    (hai : env.aiReply = AIReply.transportError ∨ env.aiReply = AIReply.errorResponse)
    (h : isQuestionComplete env.group = false)
    (hcf : ∀ t, env.checkFound t = true)
    (hout : ∀ t, env.outcome t = Outcome.wrong) :
    askAI env.aiReply = ⟨some 0, true⟩
    ∧ envOrder env = List.range env.group.optionDisabled.length
    ∧ selectsOf (solveOneQuestion env).1 = List.range env.group.optionDisabled.length
    ∧ (solveOneQuestion env).2 = SolveResult.exhausted := by
  have hask : askAI env.aiReply = ⟨some 0, true⟩ := by
    rcases hai with h' | h' <;> rw [h'] <;> rfl
  have hchoice :
      aiChoiceNat (askAI env.aiReply) env.group.optionDisabled.length = 0 := by
    rw [hask]
    unfold aiChoiceNat aiChoiceInt effIndex
    simp only [Option.getD_some]
    omega
  have horder : envOrder env = List.range env.group.optionDisabled.length := by
    unfold envOrder
    rw [hchoice, trialOrder_zero _ hn]
  have hrun := runTrials_all_wrong env hcf hout (envOrder env) 0
  have hevents : (solveOneQuestion env).1
      = Event.queryAI :: (runTrials env (envOrder env) 0).1 := by
    simp [solveOneQuestion, h, envOrder]
  have hsnd : (solveOneQuestion env).2 = (runTrials env (envOrder env) 0).2 := by
    simp [solveOneQuestion, h, envOrder]
  refine ⟨hask, horder, ?_, ?_⟩
  · rw [hevents]
    have hq : selectsOf (Event.queryAI :: (runTrials env (envOrder env) 0).1)
        = selectsOf (runTrials env (envOrder env) 0).1 := by
      simp [selectsOf, List.filterMap_cons]
    rw [hq, hrun.1, horder]
  · rw [hsnd, hrun.2]

/-- Witness for C4: two incomplete options, transport error, every
check "wrong". -/
theorem ai_failure_brute_force_witness :
    askAI AIReply.transportError = ⟨some 0, true⟩
    ∧ selectsOf (solveOneQuestion
        ⟨⟨[], [false, false]⟩, AIReply.transportError,
          fun _ => true, fun _ => Outcome.wrong⟩).1 = List.range 2
    ∧ (solveOneQuestion
        ⟨⟨[], [false, false]⟩, AIReply.transportError,
          fun _ => true, fun _ => Outcome.wrong⟩).2 = SolveResult.exhausted := by
  have h := ai_failure_brute_force
    ⟨⟨[], [false, false]⟩, AIReply.transportError,
      fun _ => true, fun _ => Outcome.wrong⟩
    (by decide) (Or.inl rfl) (by rfl) (fun _ => rfl) (fun _ => rfl)
  exact ⟨h.1, h.2.2.1, h.2.2.2⟩

lemma runTrials_head_select (env : SolveEnv) (a : Nat) (rest : List Nat) (t : Nat) :
    ((runTrials env (a :: rest) t).1)[0]? = some (Event.select a) := by
  by_cases hc : env.checkFound t = true
  · by_cases ho : env.outcome t = Outcome.correct
    · simp [runTrials, hc, ho]
    · simp [runTrials, hc, ho]
  · have hc' : env.checkFound t = false := by simpa using hc
    simp [runTrials, hc']

/-- C9: for a non-empty incomplete group the suggested index actually
used is clamped to `[0, n-1]` — a missing or non-positive index becomes
0, an index of `n` or more becomes `n - 1` — and the first selection of
the run (right after the AI query in the trace) is that clamped,
in-bounds index. -/
theorem clamp_first_trial (env : SolveEnv)
    (hn : 1 ≤ env.group.optionDisabled.length)
    (h : isQuestionComplete env.group = false) :
    aiChoiceNat (askAI env.aiReply) env.group.optionDisabled.length
        < env.group.optionDisabled.length
    ∧ (((askAI env.aiReply).index = none
          ∨ ∃ v : Int, (askAI env.aiReply).index = some v ∧ v ≤ 0) →
        aiChoiceNat (askAI env.aiReply) env.group.optionDisabled.length = 0)
    ∧ (∀ v : Int, (askAI env.aiReply).index = some v →
        (env.group.optionDisabled.length : Int) ≤ v →
        aiChoiceNat (askAI env.aiReply) env.group.optionDisabled.length
          = env.group.optionDisabled.length - 1)
    ∧ ((solveOneQuestion env).1)[1]?
        = some (Event.select
            (aiChoiceNat (askAI env.aiReply) env.group.optionDisabled.length)) := by
  refine ⟨?_, ?_, ?_, ?_⟩
  · unfold aiChoiceNat aiChoiceInt
    omega
  · rintro (hnone | ⟨v, hv, hvle⟩)
    · unfold aiChoiceNat aiChoiceInt effIndex
      rw [hnone]
      simp only [Option.getD_none]
      omega
    · unfold aiChoiceNat aiChoiceInt effIndex
      rw [hv]
      simp only [Option.getD_some]
      omega
  · intro v hv hvn
    unfold aiChoiceNat aiChoiceInt effIndex
    rw [hv]
    simp only [Option.getD_some]
    omega
  · have hev : (solveOneQuestion env).1
        = Event.queryAI :: (runTrials env (envOrder env) 0).1 := by
      simp [solveOneQuestion, h, envOrder]
    rw [hev, show (1 : Nat) = 0 + 1 from rfl, List.getElem?_cons_succ]
    unfold envOrder trialOrder
    exact runTrials_head_select env _ _ 0

/-- Witness for C9: three options, AI suggests index 5, clamped to 2. -/
theorem clamp_first_trial_witness :
    aiChoiceNat (askAI (AIReply.success (some 5) "F")) 3 = 2
    ∧ ((solveOneQuestion
        ⟨⟨[], [false, false, false]⟩, AIReply.success (some 5) "F",
          fun _ => true, fun _ => Outcome.correct⟩).1)[1]?
      = some (Event.select 2) := by
  have h := clamp_first_trial
    ⟨⟨[], [false, false, false]⟩, AIReply.success (some 5) "F",
      fun _ => true, fun _ => Outcome.correct⟩
    (by decide) (by rfl)
  exact ⟨h.2.2.1 5 rfl (by decide), h.2.2.2⟩

/-- C5 (amended): the completion oracle walks at most 20 ancestor
texts; the first one containing "Check Your Understanding" together
with either "INCOMPLETE" (deciding false, checked first) or a
whole-word "COMPLETE" (deciding true) settles the answer; an ancestor
with the marker but neither decider is passed over; if nothing decides,
the group is complete exactly when every option is disabled. -/
theorem isQuestionComplete_eq_spec (g : QuestionGroup) :
    isQuestionComplete g = isCompleteSpec g := by
  unfold isQuestionComplete isCompleteSpec
  rw [checkAncestors_eq_findSome]
  cases (g.ancestorTexts.take 20).findSome? markerDecision <;> simp

/-- C5 counterexample: an ancestor containing "Check Your
Understanding" and the substring "COMPLETE" (inside "COMPLETED") but
not "INCOMPLETE"; the claim as stated predicts `true`, the code
returns `false` because its COMPLETE test is the whole-word regex
`/\bCOMPLETE\b/i`, which "COMPLETED" does not match, and the enabled
radio makes the fallback fail. -/
theorem complete_substring_counterexample :
    icontains cexText sCYU = true
    ∧ icontains cexText sCOMPLETE = true
    ∧ icontains cexText sINCOMPLETE = false
    ∧ isQuestionComplete ⟨[cexText], [false]⟩ = false := by
  decide

lemma dismissPhase_isSome_eq (els : List Elem) :
    ∀ kws, (dismissPhase els kws).isSome
      = (els.any fun e => matchesAny e kws && visibleWH e) := by
  intro kws
  induction kws with
  | nil =>
    apply bool_eq_of_iff
    simp [dismissPhase, matchesAny]
  | cons kw rest ih =>
    apply bool_eq_of_iff
    unfold dismissPhase
    rw [List.findSome?_cons]
    cases hf : ((buttonsMatching els kw).filter isVisible).head? with
    | some b =>
      have hb : b ∈ (buttonsMatching els kw).filter isVisible :=
        List.mem_of_mem_head? (by rw [hf]; rfl)
      rcases List.mem_filter.mp hb with ⟨hb1, hvis⟩
      rcases List.mem_filter.mp hb1 with ⟨hmem, hmatch⟩
      rcases (Bool.and_eq_true _ _).mp hmatch with ⟨hbtn, hinc⟩
      simp only [Option.isSome_some, true_iff]
      refine List.any_eq_true.mpr ⟨b, hmem, ?_⟩
      have hwh : visibleWH b = true := by
        rw [← hvis]
        unfold isVisible visibleWH
        cases b.measureThrows <;> simp
      simp [matchesAny, List.any_cons, hbtn, hinc, hwh]
    | none =>
      have hempty : ∀ e ∈ els, ¬(e.isButton && textIncludes e.text kw && isVisible e) = true := by
        have h0 : (buttonsMatching els kw).filter isVisible = [] :=
          List.head?_eq_none_iff.mp hf
        intro e hmem hcontra
        rcases (Bool.and_eq_true _ _).mp hcontra with ⟨hmb, hv⟩
        have : e ∈ (buttonsMatching els kw).filter isVisible :=
          List.mem_filter.mpr ⟨List.mem_filter.mpr ⟨hmem, hmb⟩, hv⟩
        rw [h0] at this
        exact absurd this (List.not_mem_nil e)
      have ih' : (List.findSome? (fun k =>
          ((buttonsMatching els k).filter isVisible).head?) rest).isSome
          = (els.any fun e => matchesAny e rest && visibleWH e) := ih
      rw [ih']
      constructor
      · intro h
        rcases List.any_eq_true.mp h with ⟨e, hmem, he⟩
        rcases (Bool.and_eq_true _ _).mp he with ⟨hm, hv⟩
        rcases (Bool.and_eq_true _ _).mp hm with ⟨hbtn, hany⟩
        refine List.any_eq_true.mpr ⟨e, hmem, ?_⟩
        simp [matchesAny, List.any_cons, hbtn, hany, hv]
      · intro h
        rcases List.any_eq_true.mp h with ⟨e, hmem, he⟩
        rcases (Bool.and_eq_true _ _).mp he with ⟨hm, hv⟩
        rcases (Bool.and_eq_true _ _).mp hm with ⟨hbtn, hor⟩
        rcases (Bool.or_eq_true _ _).mp hor with hkw | hany
        · exfalso
          apply hempty e hmem
          have hvis : isVisible e = true := by
            rw [show isVisible e = visibleWH e from ?_, hv]
            unfold isVisible visibleWH
            cases e.measureThrows <;> simp
          simp [hbtn, hkw, hvis]
        · refine List.any_eq_true.mpr ⟨e, hmem, ?_⟩
          simp [matchesAny, hbtn, hany, hv]

lemma ariaPhase_isSome_eq (els : List Elem) :
    (ariaPhase els).isSome = (els.any fun e => ariaClose e && visibleW e) := by
  have key : ∀ labs : List String,
      (List.findSome? (fun lab =>
          ((els.filter fun e => e.ariaLabel == some lab).filter isVisibleW).head?) labs).isSome
        = (els.any fun e => (labs.any fun lab => e.ariaLabel == some lab) && visibleW e) := by
    intro labs
    induction labs with
    | nil =>
      apply bool_eq_of_iff
      simp
    | cons lab rest ih =>
      apply bool_eq_of_iff
      rw [List.findSome?_cons]
      cases hf : ((els.filter fun e => e.ariaLabel == some lab).filter isVisibleW).head? with
      | some b =>
        have hb : b ∈ (els.filter fun e => e.ariaLabel == some lab).filter isVisibleW :=
          List.mem_of_mem_head? (by rw [hf]; rfl)
        rcases List.mem_filter.mp hb with ⟨hb1, hvis⟩
        rcases List.mem_filter.mp hb1 with ⟨hmem, hlab⟩
        simp only [Option.isSome_some, true_iff]
        refine List.any_eq_true.mpr ⟨b, hmem, ?_⟩
        have hw : visibleW b = true := by
          rw [← hvis]
          unfold isVisibleW visibleW
          cases b.measureThrows <;> simp
        simp [List.any_cons, hlab, hw]
      | none =>
        have hempty : ∀ e ∈ els, ¬((e.ariaLabel == some lab) && isVisibleW e) = true := by
          have h0 : (els.filter fun e => e.ariaLabel == some lab).filter isVisibleW = [] :=
            List.head?_eq_none_iff.mp hf
          intro e hmem hcontra
          rcases (Bool.and_eq_true _ _).mp hcontra with ⟨hl, hv⟩
          have : e ∈ (els.filter fun e => e.ariaLabel == some lab).filter isVisibleW :=
            List.mem_filter.mpr ⟨List.mem_filter.mpr ⟨hmem, hl⟩, hv⟩
          rw [h0] at this
          exact absurd this (List.not_mem_nil e)
        rw [ih]
        constructor
        · intro h
          rcases List.any_eq_true.mp h with ⟨e, hmem, he⟩
          rcases (Bool.and_eq_true _ _).mp he with ⟨hm, hv⟩
          refine List.any_eq_true.mpr ⟨e, hmem, ?_⟩
          simp [List.any_cons, hm, hv]
        · intro h
          rcases List.any_eq_true.mp h with ⟨e, hmem, he⟩
          rcases (Bool.and_eq_true _ _).mp he with ⟨hor, hv⟩
          rcases (Bool.or_eq_true _ _).mp hor with hlab | hany
          · exfalso
            apply hempty e hmem
            have hvis : isVisibleW e = true := by
              rw [show isVisibleW e = visibleW e from ?_, hv]
              unfold isVisibleW visibleW
              cases e.measureThrows <;> simp
            simp [hlab, hvis]
          · refine List.any_eq_true.mpr ⟨e, hmem, ?_⟩
            simp [hany, hv]
  exact key closeLabels

/-- C8 (amended): the local resolver behaves exactly like its
declarative reading in which the two keyword phases treat a control as
visible exactly when it has non-zero rendered width and height (a
throwing check counting as visible), while the class-based close step
and the aria-label steps test only non-zero width — the aria steps
treating a throwing check as visible, the class-based step performing
the unguarded read (a throw there propagates). -/
theorem dismiss_visibility_steps (els : List Elem) :
    tryDismissLocal els = tryDismissSpec els := by
  unfold tryDismissLocal tryDismissSpec
  cases h1 : dismissPhase els wrongKws with
  | some b =>
    have hh1 : (els.any fun e => matchesAny e wrongKws && visibleWH e) = true := by
      rw [← dismissPhase_isSome_eq els wrongKws, h1]
      rfl
    rw [hh1]
    simp
  | none =>
    have hh1 : (els.any fun e => matchesAny e wrongKws && visibleWH e) = false := by
      rw [← dismissPhase_isSome_eq els wrongKws, h1]
      rfl
    rw [hh1]
    simp only [Bool.false_eq_true, if_false]
    cases h2 : dismissPhase els correctKws with
    | some b =>
      have hh2 : (els.any fun e => matchesAny e correctKws && visibleWH e) = true := by
        rw [← dismissPhase_isSome_eq els correctKws, h2]
        rfl
      rw [hh2]
      simp
    | none =>
      have hh2 : (els.any fun e => matchesAny e correctKws && visibleWH e) = false := by
        rw [← dismissPhase_isSome_eq els correctKws, h2]
        rfl
      rw [hh2]
      simp only [Bool.false_eq_true, if_false]
      have haria : ∀ r : Except Unit (Option Outcome),
          (match ariaPhase els with
            | some _ => Except.ok (some Outcome.correct)
            | none => r)
          = (if (els.any fun e => ariaClose e && visibleW e) then
              Except.ok (some Outcome.correct) else r) := by
        intro r
        cases h4 : ariaPhase els with
        | some b =>
          have hh4 : (els.any fun e => ariaClose e && visibleW e) = true := by
            rw [← ariaPhase_isSome_eq els, h4]
            rfl
          rw [hh4]
          simp
        | none =>
          have hh4 : (els.any fun e => ariaClose e && visibleW e) = false := by
            rw [← ariaPhase_isSome_eq els, h4]
            rfl
          rw [hh4]
          simp
      cases h3 : els.find? (fun e => e.hasCloseClass && !e.inShadow) with
      | some cb =>
        by_cases hm : cb.measureThrows = true
        · simp [hm]
        · have hm' : cb.measureThrows = false := by simpa using hm
          by_cases hw : 0 < cb.width
          · simp [hm', hw]
          · simp only [hm', Bool.false_eq_true, if_false, hw]
            exact haria (Except.ok none)
      | none =>
        exact haria (Except.ok none)

/-- C8 counterexample: an element bearing only the structural close
class, with positive width but zero height.  Under the claimed uniform
visibility rule it is invisible and the resolver would report no
outcome, but the code tests only the width in that step and returns
"correct". -/
theorem dismiss_visibility_counterexample :
    tryDismissLocal [⟨false, "", none, true, false, 1, 0, false⟩]
        = Except.ok (some Outcome.correct)
    ∧ tryDismissUniform [⟨false, "", none, true, false, 1, 0, false⟩] = none
    ∧ visibleWH ⟨false, "", none, true, false, 1, 0, false⟩ = false :=
  ⟨rfl, rfl, rfl⟩

/-- C6: any visible try-again/retry button forces outcome "wrong"
(whatever other buttons exist, hidden or not), and only in the absence
of such a button does a visible finish-family button give "correct". -/
theorem modal_wrong_priority (els : List Elem) :
    ((els.any fun e => matchesAny e wrongKws && visibleWH e) = true →
        tryDismissLocal els = Except.ok (some Outcome.wrong))
    ∧ ((els.any fun e => matchesAny e wrongKws && visibleWH e) = false →
        (els.any fun e => matchesAny e correctKws && visibleWH e) = true →
        tryDismissLocal els = Except.ok (some Outcome.correct)) := by
  constructor
  · intro h
    have h1 : (dismissPhase els wrongKws).isSome = true := by
      rw [dismissPhase_isSome_eq els wrongKws, h]
    rcases Option.isSome_iff_exists.mp h1 with ⟨b, hb⟩
    unfold tryDismissLocal
    rw [hb]
  · intro h hc
    have h1 : (dismissPhase els wrongKws).isSome = false := by
      rw [dismissPhase_isSome_eq els wrongKws, h]
    have h1' : dismissPhase els wrongKws = none := by
      cases hd : dismissPhase els wrongKws with
      | none => rfl
      | some b =>
        rw [hd] at h1
        exact absurd h1 (by simp)
    have h2 : (dismissPhase els correctKws).isSome = true := by
      rw [dismissPhase_isSome_eq els correctKws, hc]
    rcases Option.isSome_iff_exists.mp h2 with ⟨b, hb⟩
    unfold tryDismissLocal
    rw [h1', hb]

/-- Witness for C6: a visible Try Again next to a hidden Finish gives
"wrong"; a hidden Try Again next to a visible Finish gives "correct". -/
theorem modal_wrong_priority_witness :
    tryDismissLocal
        [⟨true, "Try Again", none, false, false, 10, 10, false⟩,
          ⟨true, "Finish", none, false, false, 0, 0, false⟩]
      = Except.ok (some Outcome.wrong)
    ∧ tryDismissLocal
        [⟨true, "Try Again", none, false, false, 0, 0, false⟩,
          ⟨true, "Finish", none, false, false, 10, 10, false⟩]
      = Except.ok (some Outcome.correct) :=
  ⟨(modal_wrong_priority _).1 (by decide),
    (modal_wrong_priority _).2 (by decide) (by decide)⟩

/-- C7: when local resolution yields no outcome in an iframe, the
result is whatever the top-frame round trip produces: a transport
failure on either leg yields "unknown", a top frame whose own local
resolution yields nothing produces "unknown", and a top-frame outcome
is passed through unchanged. -/
theorem dismiss_delegates (els topEls : List Elem) (sendFails relayFails : Bool)
    (hlocal : tryDismissLocal els = Except.ok none) :
    dismissFeedbackModal els false topEls sendFails relayFails
        = Except.ok (dismissViaTop topEls sendFails relayFails)
    ∧ (sendFails = true ∨ relayFails = true →
        dismissViaTop topEls sendFails relayFails = Outcome.unknown)
    ∧ (sendFails = false → relayFails = false →
        tryDismissLocal topEls = Except.ok none →
        dismissViaTop topEls sendFails relayFails = Outcome.unknown)
    ∧ (∀ r, sendFails = false → relayFails = false →
        tryDismissLocal topEls = Except.ok (some r) →
        dismissViaTop topEls sendFails relayFails = r) := by
  refine ⟨?_, ?_, ?_, ?_⟩
  · unfold dismissFeedbackModal
    rw [hlocal]
    rfl
  · rintro (hs | hr)
    · subst hs
      rfl
    · subst hr
      cases sendFails <;> rfl
  · intro hs hr htop
    subst hs
    subst hr
    unfold dismissViaTop topDismissHandler
    rw [htop]
    rfl
  · intro r hs hr htop
    subst hs
    subst hr
    unfold dismissViaTop topDismissHandler
    rw [htop]
    rfl

/-- Witness for C7: empty DOMs in both frames, no transport failure —
the delegated resolution comes back "unknown". -/
theorem dismiss_delegates_witness :
    dismissFeedbackModal [] false [] false false = Except.ok Outcome.unknown := by
  have h := dismiss_delegates [] [] false false rfl
  rw [h.1, h.2.2.1 rfl rfl rfl]

lemma char_range_mem (c : Char) (h1 : 'A' ≤ c) (h2 : c ≤ 'F') : c ∈ letters := by
  have h65 : 65 ≤ c.toNat := by
    rw [Char.le_def] at h1
    exact h1
  have h70 : c.toNat ≤ 70 := by
    rw [Char.le_def] at h2
    exact h2
  have hc : c.toNat = 65 ∨ c.toNat = 66 ∨ c.toNat = 67 ∨ c.toNat = 68 ∨
      c.toNat = 69 ∨ c.toNat = 70 := by omega
  rcases hc with h | h | h | h | h | h
  · have hc' : c = 'A' := Char.ext (UInt32.ext (by simpa using h))
    simp [hc', letters]
  · have hc' : c = 'B' := Char.ext (UInt32.ext (by simpa using h))
    simp [hc', letters]
  · have hc' : c = 'C' := Char.ext (UInt32.ext (by simpa using h))
    simp [hc', letters]
  · have hc' : c = 'D' := Char.ext (UInt32.ext (by simpa using h))
    simp [hc', letters]
  · have hc' : c = 'E' := Char.ext (UInt32.ext (by simpa using h))
    simp [hc', letters]
  · have hc' : c = 'F' := Char.ext (UInt32.ext (by simpa using h))
    simp [hc', letters]

lemma contains_letters_mem (c : Char) (h : letters.contains c = true) : c ∈ letters := by
  simp only [letters, List.contains_cons, List.contains_nil, Bool.or_false,
    Bool.or_eq_true, beq_iff_eq] at h
  simp only [letters, List.mem_cons, List.not_mem_nil, or_false]
  exact h

lemma range_pred_eq_contains (c : Char) :
    (decide ('A' ≤ c) && decide (c ≤ 'F')) = letters.contains c := by
  apply bool_eq_of_iff
  constructor
  · intro h
    rcases (Bool.and_eq_true _ _).mp h with ⟨ha, hf⟩
    have hmem := char_range_mem c (of_decide_eq_true ha) (of_decide_eq_true hf)
    fin_cases hmem <;> rfl
  · intro h
    have hmem : c ∈ letters := contains_letters_mem c h
    fin_cases hmem <;> decide

/-- C10: on any successful AI completion the background worker answers
with an index and the raw text, never an error; the index is the
position in A..F of the first letter surviving "uppercase, delete
everything outside A-F" (0 when nothing survives), hence always at
most 5. -/
theorem background_letter_mapping (content : Option String) :
    (∀ raw : String, mapRawToIndex raw = specLetterIndex raw ∧ mapRawToIndex raw ≤ 5)
    ∧ handleAISuccess content
      = HandlerResult.response
          (mapRawToIndex (String.mk (trimChars (content.getD "").toList)))
          (String.mk (trimChars (content.getD "").toList)) := by
  refine ⟨?_, rfl⟩
  intro raw
  unfold mapRawToIndex specLetterIndex
  rw [show (fun c => decide ('A' ≤ c) && decide (c ≤ 'F'))
      = (fun c => letters.contains c) from funext range_pred_eq_contains]
  cases hh : ((upperList raw.toList).filter fun c => letters.contains c).head? with
  | none =>
    exact ⟨rfl, by decide⟩
  | some c =>
    have hcmem : c ∈ (upperList raw.toList).filter fun c => letters.contains c :=
      List.mem_of_mem_head? (by rw [hh]; rfl)
    have hcont : letters.contains c = true := (List.mem_filter.mp hcmem).2
    have hmem : c ∈ letters := contains_letters_mem c hcont
    have hlt : letters.indexOf c < letters.length := List.indexOf_lt_length.mpr hmem
    have hle : letters.indexOf c ≤ 5 := by
      have hlen : letters.length = 6 := rfl
      omega
    have hidx : letterIdxOf (some c) = (letters.indexOf c : Int) := by
      simp [letterIdxOf, hcont, hmem]
    have hjs : jsIndexDefault (letterIdxOf (some c)) = letters.indexOf c := by
      rw [hidx]
      unfold jsIndexDefault
      rw [if_pos (Int.natCast_nonneg (letters.indexOf c))]
      exact Int.toNat_natCast _
    have hspec : specHead (some c) = letters.indexOf c := rfl
    rw [hjs, hspec]
    exact ⟨rfl, hle⟩

end NortonSolver
